import Mathlib

/-!
Shallow embedding of the lending workflow of the library-management backend:
the loan ledger (`src/models/loans_model.py`), the book availability store
(`src/models/books_model.py`) and the borrow / return / list-loans route
handlers (`src/routes/routes_api.py`).

Modelling conventions:
* MongoDB collections become association lists `List (Oid × doc)` kept in a
  `DB` record; `find_one` / `update_one` act on the first entry whose key
  matches, exactly as MongoDB does.
* MongoDB `ObjectId` values are natural numbers below `16 ^ 24`; the string
  form accepted by the `ObjectId` constructor is a 24-character hexadecimal
  string (case-insensitive), and `str(ObjectId)` prints 24 lowercase hex
  digits.  A failing `ObjectId(s)` conversion raises, which each model
  function catches (or lets propagate) exactly where the source does.
* `datetime.utcnow()` becomes an explicit `now : Nat` argument (seconds);
  `timedelta(days = d)` is `d * 86400` seconds.  A single request handler
  runs at one instant.
-/

/-! ## Object identifiers (bson `ObjectId`) -/

/-- Object identifiers are 12-byte values, represented as natural numbers. -/
abbrev Oid := Nat

/-- Numeric value of one hexadecimal character, case-insensitive;
`none` when the character is not a hex digit. -/
def hexVal? (c : Char) : Option Nat :=
  if '0' ≤ c ∧ c ≤ '9' then some (c.toNat - '0'.toNat)
  else if 'a' ≤ c ∧ c ≤ 'f' then some (c.toNat - 'a'.toNat + 10)
  else if 'A' ≤ c ∧ c ≤ 'F' then some (c.toNat - 'A'.toNat + 10)
  else none

/-- Value of a big-endian list of hexadecimal characters; `none` when any
character is not a hex digit. -/
def parseHexChars : List Char → Option Nat
  | [] => some 0
  | c :: cs =>
    match hexVal? c, parseHexChars cs with
    | some d, some v => some (d * 16 ^ cs.length + v)
    | _, _ => none

/-- Semantics of the `ObjectId(s)` constructor of the bson library on a
string argument: accepted exactly when `s` is a 24-character hexadecimal
string, yielding its value; `none` models the raised `InvalidId`. -/
def parseOid (s : String) : Option Oid :=
  if s.data.length = 24 then parseHexChars s.data else none

/-- Big-endian hexadecimal digits (lowercase) of `v % 16 ^ w`, width `w`. -/
def toHexChars : Nat → Nat → List Char
  | 0, _ => []
  | w + 1, v => Nat.digitChar (v / 16 ^ w % 16) :: toHexChars w v

/-- Semantics of `str(ObjectId)`: 24 lowercase hexadecimal digits. -/
def oidToHex (v : Oid) : String :=
  ⟨toHexChars 24 v⟩

/-! ## Data model (document layouts) -/

/-- Layout of a book document, as built by `create_book` in
`src/models/books_model.py`. -/
structure Book where
  title : String
  author : String
  year : Option Int
  isbn : String
  description : String
  genre : String
  language : String
  available : Bool
  created_at : Nat
  updated_at : Nat
deriving DecidableEq

/-- Layout of a loan document, as built by `create_loan` in
`src/models/loans_model.py`.  `returned_date` is `none` while the loan is
active; `status` is the literal string stored in the document. -/
structure Loan where
  user_id : Oid
  book_id : Oid
  borrowed_date : Nat
  due_date : Nat
  returned_date : Option Nat
  status : String
deriving DecidableEq

/-- The two collections the lending workflow touches, plus the
fresh-identifier source of the backend for inserted loan documents. -/
structure DB where
  books : List (Oid × Book)
  loans : List (Oid × Loan)
  nextId : Oid
deriving DecidableEq

/-- First document whose key matches, i.e. MongoDB `find_one({_id: i})`. -/
def findDoc {α : Type} : List (Oid × α) → Oid → Option α
  | [], _ => none
  | (j, x) :: t, i => if j = i then some x else findDoc t i

/-- Apply `f` to the first document whose key matches, i.e. the write part of
MongoDB `update_one({_id: i}, {$set: ...})`. -/
def updateFirst {α : Type} : List (Oid × α) → Oid → (α → α) → List (Oid × α)
  | [], _, _ => []
  | (j, x) :: t, i, f => if j = i then (j, f x) :: t else (j, x) :: updateFirst t i f

/-! ## Book availability store (`src/models/books_model.py`) -/

/-- Embedding of `get_book_by_id(book_id)`: `ObjectId(book_id)` inside
`try` (a malformed id is caught and yields `None`), then `find_one`. -/
def get_book_by_id (db : DB) (book_id : String) : Option Book :=
  match parseOid book_id with
  | none => none
  | some o => findDoc db.books o

/-- Embedding of `update_book(book_id, update_data)` at the call pattern the
lending workflow uses, `update_data = {"available": v}`: the function adds
`updated_at = utcnow()` and runs `update_one` with `$set`; a malformed id or
a missing document yields `False`.  The returned boolean is
`modified_count > 0`: true when the matched document actually changed. -/
def update_book (db : DB) (book_id : String) (avail : Bool) (now : Nat) : Bool × DB :=
  match parseOid book_id with
  | none => (false, db)
  | some o =>
    match findDoc db.books o with
    | none => (false, db)
    | some bk =>
      let bk' : Book := { bk with available := avail, updated_at := now }
      let books' := updateFirst db.books o
        (fun b => { b with available := avail, updated_at := now })
      (decide (bk' ≠ bk), { db with books := books' })

/-- Embedding of `toggle_book_availability(book_id, available)`, a wrapper
around `update_book`. -/
def toggle_book_availability (db : DB) (book_id : String) (avail : Bool) (now : Nat) :
    Bool × DB :=
  update_book db book_id avail now

/-! ## Loan ledger (`src/models/loans_model.py`) -/

/-- Embedding of `create_loan(user_id, book_id, due_days=14)`: converts both
ids with `ObjectId` (no `try`, so a malformed id raises — modelled by
`none`), builds the loan document and inserts it, returning the document
with its generated `_id`. -/
def create_loan (db : DB) (user_id book_id : String) (now : Nat) (due_days : Nat := 14) :
    Option (Oid × Loan × DB) :=
  match parseOid user_id, parseOid book_id with
  | some uo, some bo =>
    let loan : Loan :=
      { user_id := uo
        book_id := bo
        borrowed_date := now
        due_date := now + due_days * 86400
        returned_date := none
        status := "active" }
    some (db.nextId, loan,
      { db with loans := db.loans ++ [(db.nextId, loan)], nextId := db.nextId + 1 })
  | _, _ => none

/-- Embedding of `get_loan_by_id(loan_id)`: `ObjectId` inside `try` (a
malformed id yields `None`), then `find_one`. -/
def get_loan_by_id (db : DB) (loan_id : String) : Option Loan :=
  match parseOid loan_id with
  | none => none
  | some o => findDoc db.loans o

/-- Embedding of `return_loan(loan_id)`: inside `try`, `update_one` setting
`returned_date = utcnow()` and `status = "returned"` in a single `$set`; a
malformed id yields `False`, and the boolean is `modified_count > 0`. -/
def return_loan (db : DB) (loan_id : String) (now : Nat) : Bool × DB :=
  match parseOid loan_id with
  | none => (false, db)
  | some o =>
    match findDoc db.loans o with
    | none => (false, db)
    | some l =>
      let l' : Loan := { l with returned_date := some now, status := "returned" }
      let loans' := updateFirst db.loans o
        (fun x => { x with returned_date := some now, status := "returned" })
      (decide (l' ≠ l), { db with loans := loans' })

/-- One row of the aggregation result of `get_user_loans`: the loan document
(with its `_id`) and, after `$lookup` from `books` and `$unwind` with
`preserveNullAndEmptyArrays`, the joined book document or `null`. -/
structure LoanWithBook where
  loanId : Oid
  loan : Loan
  book : Option Book
deriving DecidableEq

/-- Embedding of `get_user_loans(user_id)`: `$match` on `user_id` (all
statuses), `$lookup` of `books` on `book_id = _id`, `$unwind` with
`preserveNullAndEmptyArrays: True`.  Any exception — in particular a
malformed `user_id` — is caught and yields `[]`. -/
def get_user_loans (db : DB) (user_id : String) : List LoanWithBook :=
  match parseOid user_id with
  | none => []
  | some uo =>
    (db.loans.filter (fun p => p.2.user_id == uo)).flatMap (fun p =>
      match db.books.filter (fun b => b.1 == p.2.book_id) with
      | [] => [⟨p.1, p.2, none⟩]
      | bs => bs.map (fun b => ⟨p.1, p.2, some b.2⟩))

/-! ## Route handlers (`src/routes/routes_api.py`) -/

/-- Outcomes of the borrow endpoint `POST /loans` (`borrow_book`), one
constructor per `return` site.  The error taxonomy of the spec maps
`authRequired` to `Unauthenticated` (401), `bookNotFound` to `NotFound`
(404), `bookNotAvailable` to `Conflict: BookUnavailable` (HTTP 400,
"Book is not available"), and `internalError` to `Internal` (500). -/
inductive BorrowRes where
  | authRequired
  | bookIdRequired
  | bookNotFound
  | bookNotAvailable
  | internalError
  | borrowed (loanId : Oid) (loan : Loan)
deriving DecidableEq

/-- Truthiness of the `get_current_user_id()` result / a JSON string field:
`None` and the empty string are falsy. -/
def truthy : Option String → Bool
  | none => false
  | some s => decide (s ≠ "")

/-- Embedding of the `borrow_book` route handler: authentication check,
`book_id` presence check, book lookup, availability check, then
`create_loan` followed by `toggle_book_availability(book_id, False)` whose
result is ignored.  An exception inside `create_loan` (malformed
`user_id`) reaches the `except` of the handler and yields the 500 response with
no write performed. -/
def borrow_book (db : DB) (caller : Option String) (bookIdArg : Option String) (now : Nat) :
    BorrowRes × DB :=
  if !truthy caller then (.authRequired, db)
  else
    match bookIdArg with
    | none => (.bookIdRequired, db)
    | some s =>
      if s = "" then (.bookIdRequired, db)
      else
        match get_book_by_id db s with
        | none => (.bookNotFound, db)
        | some bk =>
          if !bk.available then (.bookNotAvailable, db)
          else
            match create_loan db (caller.getD "") s now with
            | none => (.internalError, db)
            | some (lid, loan, db1) =>
              let r := toggle_book_availability db1 s false now
              (.borrowed lid loan, r.2)

/-- Outcomes of the return endpoint `POST /loans/<loan_id>/return`
(`return_book`).  The error taxonomy of the spec maps `authRequired` to
`Unauthenticated` (401), `loanNotFound` to `NotFound` (404),
`forbiddenNotOwner` to `Forbidden` (403, "Unauthorized"), and
`alreadyReturned` to `Conflict: AlreadyReturned` (HTTP 400,
"Book already returned"). -/
inductive ReturnRes where
  | authRequired
  | loanNotFound
  | forbiddenNotOwner
  | alreadyReturned
  | returnedOk
deriving DecidableEq

/-- Embedding of the `return_book` route handler: authentication check,
loan lookup, ownership check comparing `str(loan["user_id"])` with the
identity string of the caller, already-returned check, then `return_loan`
followed by `toggle_book_availability(str(loan["book_id"]), True)`.  The
source guards the book flip with `if book_id:`, but a stored `ObjectId` is
always truthy in Python, so the flip is unconditional here. -/
def return_book (db : DB) (caller : Option String) (loan_id : String) (now : Nat) :
    ReturnRes × DB :=
  if !truthy caller then (.authRequired, db)
  else
    match get_loan_by_id db loan_id with
    | none => (.loanNotFound, db)
    | some loan =>
      if oidToHex loan.user_id ≠ caller.getD "" then (.forbiddenNotOwner, db)
      else if loan.status = "returned" then (.alreadyReturned, db)
      else
        let r1 := return_loan db loan_id now
        let r2 := toggle_book_availability r1.2 (oidToHex loan.book_id) true now
        (.returnedOk, r2.2)

/-- Outcomes of the list endpoint `GET /loans` (`get_user_loans_endpoint`):
401 when unauthenticated, otherwise 200 with the rows of
`get_user_loans`. -/
inductive LoansRes where
  | authRequired
  | ok (rows : List LoanWithBook)
deriving DecidableEq

/-- Embedding of the `get_user_loans_endpoint` route handler: authentication
check, then `get_user_loans(user_id)` serialized into the 200 response.  The
handler performs no write, so the state component is returned unchanged. -/
def get_user_loans_endpoint (db : DB) (caller : Option String) : LoansRes × DB :=
  if !truthy caller then (.authRequired, db)
  else (.ok (get_user_loans db (caller.getD "")), db)

/-! ## Invariants over the lending state -/

/-- Some loan in `loans` references book `bid` with `status == "active"`. -/
def HasActive (loans : List (Oid × Loan)) (bid : Oid) : Prop :=
  ∃ q ∈ loans, q.2.book_id = bid ∧ q.2.status = "active"

/-- Central cross-entity invariant: the `available` flag of a book is
`false` exactly when an active loan references it. -/
def AvailInv (db : DB) : Prop :=
  ∀ p ∈ db.books, (p.2.available = false ↔ HasActive db.loans p.1)

/-- No two distinct loan documents are both active on the same book. -/
def PairwiseActive (loans : List (Oid × Loan)) : Prop :=
  loans.Pairwise (fun p q =>
    p.2.status = "active" → q.2.status = "active" → p.2.book_id ≠ q.2.book_id)

/-- Status of every loan is one of the two values the workflow writes. -/
def StatusOK (loans : List (Oid × Loan)) : Prop :=
  ∀ p ∈ loans, p.2.status = "active" ∨ p.2.status = "returned"

/-- Structural well-formedness the persistence backend guarantees: unique
`_id` keys, fresh identifiers above every stored loan key, and loan
`book_id` references that fit in an `ObjectId` (they were produced by
parsing a 24-digit hex string). -/
def WF (db : DB) : Prop :=
  (db.books.map Prod.fst).Nodup ∧ (db.loans.map Prod.fst).Nodup ∧
    (∀ p ∈ db.loans, p.1 < db.nextId) ∧ (∀ p ∈ db.loans, p.2.book_id < 16 ^ 24)

/-- Invariant bundle preserved by serialized borrow / return requests. -/
def LendInv (db : DB) : Prop :=
  WF db ∧ StatusOK db.loans ∧ AvailInv db ∧ PairwiseActive db.loans

/-- Every active loan references a stored book whose flag is `false`. -/
def ActiveUnavail (db : DB) : Prop :=
  ∀ p ∈ db.loans, p.2.status = "active" →
    ∃ b ∈ db.books, b.1 = p.2.book_id ∧ b.2.available = false

/-- Invariant bundle preserved by serialized borrow requests alone. -/
def BorrowOnlyInv (db : DB) : Prop :=
  WF db ∧ ActiveUnavail db ∧ PairwiseActive db.loans

/-- At most one active loan references any given book identifier. -/
def AtMostOneActive (loans : List (Oid × Loan)) : Prop :=
  ∀ bid : Oid, loans.countP (fun q => q.2.book_id == bid && q.2.status == "active") ≤ 1

/-- One serialized request against the lending workflow: a borrow or a
return call, with both of its writes run to completion. -/
inductive LendStep : DB → DB → Prop where
  | borrow (db : DB) (caller bookIdArg : Option String) (now : Nat) :
      LendStep db (borrow_book db caller bookIdArg now).2
  | ret (db : DB) (caller : Option String) (loan_id : String) (now : Nat) :
      LendStep db (return_book db caller loan_id now).2

/-- States reachable through serialized borrow / return requests. -/
inductive LendReach : DB → DB → Prop where
  | refl (db : DB) : LendReach db db
  | step {a b c : DB} : LendReach a b → LendStep b c → LendReach a c

/-- States reachable through serialized borrow requests only. -/
inductive BorrowReach : DB → DB → Prop where
  | refl (db : DB) : BorrowReach db db
  | step {a b : DB} (caller bookIdArg : Option String) (now : Nat) :
      BorrowReach a b → BorrowReach a (borrow_book b caller bookIdArg now).2

/-! ## Lemmas: object-id strings -/

lemma charLe_toNat {c d : Char} (h : c ≤ d) : c.toNat ≤ d.toNat := by
  have h1 : c.val ≤ d.val := (Char.le_def).1 h
  simpa [Char.toNat] using h1

lemma hexVal?_lt {c : Char} {d : Nat} (h : hexVal? c = some d) : d < 16 := by
  have e9 : ('9' : Char).toNat = 57 := rfl
  have e0 : ('0' : Char).toNat = 48 := rfl
  have ea : ('a' : Char).toNat = 97 := rfl
  have ef : ('f' : Char).toNat = 102 := rfl
  have eA : ('A' : Char).toNat = 65 := rfl
  have eF : ('F' : Char).toNat = 70 := rfl
  unfold hexVal? at h
  split at h
  · rename_i hc
    have := charLe_toNat hc.2
    simp only [Option.some.injEq] at h
    omega
  · split at h
    · rename_i hc
      have := charLe_toNat hc.2
      simp only [Option.some.injEq] at h
      omega
    · split at h
      · rename_i hc
        have := charLe_toNat hc.2
        simp only [Option.some.injEq] at h
        omega
      · exact absurd h (by simp)

lemma parseHexChars_lt : ∀ {cs : List Char} {v : Nat},
    parseHexChars cs = some v → v < 16 ^ cs.length
  | [], v, h => by
    simp only [parseHexChars, Option.some.injEq] at h
    subst h
    norm_num
  | c :: cs, v, h => by
    unfold parseHexChars at h
    rcases hc : hexVal? c with _ | d <;> rw [hc] at h
    · simp at h
    · rcases hp : parseHexChars cs with _ | w <;> rw [hp] at h
      · simp at h
      · simp only [Option.some.injEq] at h
        have hd := hexVal?_lt hc
        have hw := parseHexChars_lt hp
        have hpow : 16 ^ (c :: cs).length = 16 * 16 ^ cs.length := by
          simp [List.length_cons, pow_succ]; ring
        rw [hpow]
        subst h
        nlinarith

lemma hexVal?_digitChar {d : Nat} (h : d < 16) : hexVal? (Nat.digitChar d) = some d := by
  interval_cases d <;> decide

lemma toHexChars_length : ∀ (w v : Nat), (toHexChars w v).length = w
  | 0, _ => rfl
  | w + 1, v => by simp [toHexChars, toHexChars_length w v]

lemma mod_mul_split (b a r : Nat) (hr : r < b) :
    (b * a + r) % (b * 16) = a % 16 * b + r := by
  have key : b * a + r = b * (a % 16) + r + (b * 16) * (a / 16) := by
    conv_lhs => rw [← Nat.div_add_mod a 16]
    ring
  rw [key, Nat.add_mul_mod_self_left]
  have hlt : b * (a % 16) + r < b * 16 := by
    have : a % 16 < 16 := Nat.mod_lt _ (by norm_num)
    nlinarith
  rw [Nat.mod_eq_of_lt hlt]
  ring

lemma mod_hex_split (v w : Nat) : v % 16 ^ (w + 1) = v / 16 ^ w % 16 * 16 ^ w + v % 16 ^ w := by
  have h16 : (0:Nat) < 16 ^ w := Nat.pow_pos (by norm_num)
  have hr : v % 16 ^ w < 16 ^ w := Nat.mod_lt _ h16
  have h := mod_mul_split (16 ^ w) (v / 16 ^ w) (v % 16 ^ w) hr
  rw [Nat.div_add_mod] at h
  rw [pow_succ]
  exact h

lemma parseHexChars_toHexChars : ∀ (w v : Nat),
    parseHexChars (toHexChars w v) = some (v % 16 ^ w)
  | 0, v => by simp [toHexChars, parseHexChars, Nat.mod_one]
  | w + 1, v => by
    unfold toHexChars parseHexChars
    rw [hexVal?_digitChar (Nat.mod_lt _ (by norm_num)), parseHexChars_toHexChars w v,
      toHexChars_length]
    rw [mod_hex_split v w]

lemma parseOid_lt {s : String} {v : Oid} (h : parseOid s = some v) : v < 16 ^ 24 := by
  unfold parseOid at h
  split at h
  · rename_i hl
    have := parseHexChars_lt h
    rwa [hl] at this
  · exact absurd h (by simp)

lemma parseOid_oidToHex {v : Oid} (h : v < 16 ^ 24) : parseOid (oidToHex v) = some v := by
  unfold parseOid oidToHex
  have hd : (String.mk (toHexChars 24 v)).data = toHexChars 24 v := rfl
  rw [hd, toHexChars_length, if_pos rfl, parseHexChars_toHexChars, Nat.mod_eq_of_lt h]

lemma parseOid_ne_empty {s : String} {v : Oid} (h : parseOid s = some v) : s ≠ "" := by
  intro he
  subst he
  unfold parseOid at h
  simp at h

/-! ## Lemmas: association-list primitives -/

lemma findDoc_mem {α : Type} {l : List (Oid × α)} {i : Oid} {x : α}
    (h : findDoc l i = some x) : (i, x) ∈ l := by
  induction l with
  | nil => simp [findDoc] at h
  | cons p t ih =>
    obtain ⟨j, y⟩ := p
    unfold findDoc at h
    split at h
    · rename_i hj
      simp only [Option.some.injEq] at h
      subst h
      subst hj
      exact List.mem_cons_self _ _
    · exact List.mem_cons_of_mem _ (ih h)

lemma findDoc_of_mem_nodup {α : Type} {l : List (Oid × α)}
    (hnd : (l.map Prod.fst).Nodup) {i : Oid} {x : α} (hm : (i, x) ∈ l) :
    findDoc l i = some x := by
  induction l with
  | nil => simp at hm
  | cons p t ih =>
    obtain ⟨j, y⟩ := p
    rw [List.map_cons, List.nodup_cons] at hnd
    rcases List.mem_cons.1 hm with h1 | h1
    · rw [Prod.mk.injEq] at h1
      obtain ⟨h1a, h1b⟩ := h1
      subst h1a
      subst h1b
      simp [findDoc]
    · unfold findDoc
      split
      · rename_i hj
        subst hj
        exact absurd (List.mem_map.2 ⟨(j, x), h1, rfl⟩) hnd.1
      · exact ih hnd.2 h1

lemma findDoc_eq_none_iff {α : Type} {l : List (Oid × α)} {i : Oid} :
    findDoc l i = none ↔ ∀ p ∈ l, p.1 ≠ i := by
  induction l with
  | nil => simp [findDoc]
  | cons p t ih =>
    obtain ⟨j, y⟩ := p
    unfold findDoc
    split
    · rename_i hj
      subst hj
      simp
    · rename_i hj
      simp [ih, hj]

lemma updateFirst_map_fst {α : Type} (l : List (Oid × α)) (i : Oid) (f : α → α) :
    (updateFirst l i f).map Prod.fst = l.map Prod.fst := by
  induction l with
  | nil => rfl
  | cons p t ih =>
    obtain ⟨j, y⟩ := p
    unfold updateFirst
    split <;> simp [ih]

lemma updateFirst_of_none {α : Type} {l : List (Oid × α)} {i : Oid}
    (h : findDoc l i = none) (f : α → α) : updateFirst l i f = l := by
  induction l with
  | nil => rfl
  | cons p t ih =>
    obtain ⟨j, y⟩ := p
    unfold findDoc at h
    unfold updateFirst
    split at h
    · simp at h
    · rename_i hj
      rw [if_neg hj, ih h]

lemma mem_updateFirst_nodup {α : Type} {l : List (Oid × α)}
    (hnd : (l.map Prod.fst).Nodup) (i : Oid) (f : α → α) (p : Oid × α) :
    p ∈ updateFirst l i f ↔
      ((p ∈ l ∧ p.1 ≠ i) ∨ ∃ x, findDoc l i = some x ∧ p = (i, f x)) := by
  induction l with
  | nil => simp [updateFirst, findDoc]
  | cons q t ih =>
    obtain ⟨j, y⟩ := q
    rw [List.map_cons, List.nodup_cons] at hnd
    unfold updateFirst findDoc
    split
    · rename_i hj
      subst hj
      constructor
      · intro hm
        rcases List.mem_cons.1 hm with h1 | h1
        · exact Or.inr ⟨y, rfl, h1⟩
        · refine Or.inl ⟨List.mem_cons_of_mem _ h1, ?_⟩
          intro hpi
          exact hnd.1 (List.mem_map.2 ⟨p, h1, hpi⟩)
      · rintro (⟨hm, hne⟩ | ⟨x, hx, rfl⟩)
        · rcases List.mem_cons.1 hm with h1 | h1
          · exact absurd (congrArg Prod.fst h1) hne
          · exact List.mem_cons_of_mem _ h1
        · simp only [Option.some.injEq] at hx
          subst hx
          exact List.mem_cons_self _ _
    · rename_i hj
      constructor
      · intro hm
        rcases List.mem_cons.1 hm with h1 | h1
        · exact Or.inl ⟨by simp [h1], by simp [h1, hj]⟩
        · rcases (ih hnd.2).1 h1 with ⟨hm2, hne⟩ | ⟨x, hx, rfl⟩
          · exact Or.inl ⟨List.mem_cons_of_mem _ hm2, hne⟩
          · exact Or.inr ⟨x, hx, rfl⟩
      · rintro (⟨hm, hne⟩ | ⟨x, hx, rfl⟩)
        · rcases List.mem_cons.1 hm with h1 | h1
          · subst h1
            exact List.mem_cons_self _ _
          · exact List.mem_cons_of_mem _ ((ih hnd.2).2 (Or.inl ⟨h1, hne⟩))
        · exact List.mem_cons_of_mem _ ((ih hnd.2).2 (Or.inr ⟨x, hx, rfl⟩))

/-! ## Lemmas: characterizing the route handlers -/

lemma oidToHex_ne_empty (v : Oid) : oidToHex v ≠ "" := by
  intro h
  have hd := congrArg String.data h
  have hl := congrArg List.length hd
  rw [show (oidToHex v).data = toHexChars 24 v from rfl, toHexChars_length] at hl
  simp at hl

lemma mem_updateFirst {α : Type} {l : List (Oid × α)} {i : Oid} {f : α → α} {p : Oid × α}
    (h : p ∈ updateFirst l i f) : p ∈ l ∨ ∃ x, (i, x) ∈ l ∧ p = (i, f x) := by
  induction l with
  | nil => simp [updateFirst] at h
  | cons q t ih =>
    obtain ⟨j, y⟩ := q
    unfold updateFirst at h
    split at h
    · rename_i hj
      subst hj
      rcases List.mem_cons.1 h with h1 | h1
      · exact Or.inr ⟨y, List.mem_cons_self _ _, h1⟩
      · exact Or.inl (List.mem_cons_of_mem _ h1)
    · rcases List.mem_cons.1 h with h1 | h1
      · exact Or.inl (h1 ▸ List.mem_cons_self _ _)
      · rcases ih h1 with h2 | ⟨x, hx, rfl⟩
        · exact Or.inl (List.mem_cons_of_mem _ h2)
        · exact Or.inr ⟨x, List.mem_cons_of_mem _ hx, rfl⟩

/-- The loan document a successful borrow inserts (the route calls
`create_loan` with the default 14-day period). -/
def mkActiveLoan (uo bo : Oid) (now : Nat) : Loan :=
  { user_id := uo
    book_id := bo
    borrowed_date := now
    due_date := now + 14 * 86400
    returned_date := none
    status := "active" }

/-- State after the success path of `borrow_book`: the loan insert of
`create_loan` followed by the book flip of `toggle_book_availability`. -/
def borrowSucc (db : DB) (uo bo : Oid) (now : Nat) : DB :=
  { books := updateFirst db.books bo (fun b => { b with available := false, updated_at := now })
    loans := db.loans ++ [(db.nextId, mkActiveLoan uo bo now)]
    nextId := db.nextId + 1 }

/-- State after the success path of `return_book`: the loan update of
`return_loan` followed by the book flip of `toggle_book_availability`
(which leaves the books untouched when the referenced book is gone). -/
def returnSucc (db : DB) (o bid : Oid) (now : Nat) : DB :=
  { db with
    loans := updateFirst db.loans o
      (fun x => { x with returned_date := some now, status := "returned" })
    books :=
      match findDoc db.books bid with
      | none => db.books
      | some _ =>
        updateFirst db.books bid (fun b => { b with available := true, updated_at := now }) }

lemma borrow_book_success (db : DB) {u sid : String} {uo bo : Oid} {bk : Book} (now : Nat)
    (hu : parseOid u = some uo) (hs : parseOid sid = some bo)
    (hf : findDoc db.books bo = some bk) (hav : bk.available = true) :
    borrow_book db (some u) (some sid) now =
      (.borrowed db.nextId (mkActiveLoan uo bo now), borrowSucc db uo bo now) := by
  have hne : u ≠ "" := parseOid_ne_empty hu
  have hsne : sid ≠ "" := parseOid_ne_empty hs
  have ht : truthy (some u) = true := by simp [truthy, hne]
  unfold borrow_book
  rw [ht]
  simp only [Bool.not_true, Bool.false_eq_true, if_false, if_neg hsne]
  unfold get_book_by_id create_loan toggle_book_availability update_book
  simp only [hs, hu, hf, hav, Option.getD_some, Bool.not_true, Bool.false_eq_true, if_false]
  rfl

lemma return_book_success (db : DB) {u s : String} {o : Oid} {loan : Loan} (now : Nat)
    (hs : parseOid s = some o) (hf : findDoc db.loans o = some loan)
    (hu : oidToHex loan.user_id = u) (hst : loan.status ≠ "returned")
    (hb : loan.book_id < 16 ^ 24) :
    return_book db (some u) s now = (.returnedOk, returnSucc db o loan.book_id now) := by
  subst hu
  have ht : truthy (some (oidToHex loan.user_id)) = true := by
    simp [truthy, oidToHex_ne_empty]
  unfold return_book
  rw [ht]
  simp only [Bool.not_true, Bool.false_eq_true, if_false]
  unfold get_loan_by_id return_loan toggle_book_availability update_book
  simp only [hs, hf, Option.getD_some, ne_eq, not_true_eq_false, if_false,
    if_neg hst, parseOid_oidToHex hb]
  unfold returnSucc
  rcases hfb : findDoc db.books loan.book_id with _ | bk2 <;> simp only [hfb] <;> rfl

lemma borrow_book_state (db : DB) (c s : Option String) (now : Nat) :
    (borrow_book db c s now).2 = db ∨
    ∃ u sid uo bo bk,
      c = some u ∧ s = some sid ∧ parseOid u = some uo ∧ parseOid sid = some bo ∧
      findDoc db.books bo = some bk ∧ bk.available = true ∧
      (borrow_book db c s now).2 = borrowSucc db uo bo now := by
  rcases c with _ | u
  · exact Or.inl rfl
  by_cases hu0 : u = ""
  · subst hu0
    exact Or.inl rfl
  rcases s with _ | sid
  · left
    simp [borrow_book, truthy, hu0]
  by_cases hs0 : sid = ""
  · subst hs0
    left
    simp [borrow_book, truthy, hu0]
  rcases hpb : parseOid sid with _ | bo
  · left
    simp [borrow_book, truthy, hu0, hs0, get_book_by_id, hpb]
  rcases hfb : findDoc db.books bo with _ | bk
  · left
    simp [borrow_book, truthy, hu0, hs0, get_book_by_id, hpb, hfb]
  rcases hav : bk.available with _ | _
  · left
    simp [borrow_book, truthy, hu0, hs0, get_book_by_id, hpb, hfb, hav]
  rcases hpu : parseOid u with _ | uo
  · left
    simp [borrow_book, truthy, hu0, hs0, get_book_by_id, create_loan, hpb, hfb, hav, hpu]
  · right
    refine ⟨u, sid, uo, bo, bk, rfl, rfl, hpu, hpb, hfb, hav, ?_⟩
    rw [borrow_book_success db now hpu hpb hfb hav]

lemma return_book_state (db : DB) (c : Option String) (s : String) (now : Nat)
    (hbound : ∀ p ∈ db.loans, p.2.book_id < 16 ^ 24) :
    (return_book db c s now).2 = db ∨
    ∃ u o loan,
      c = some u ∧ parseOid s = some o ∧ findDoc db.loans o = some loan ∧
      oidToHex loan.user_id = u ∧ loan.status ≠ "returned" ∧
      (return_book db c s now).2 = returnSucc db o loan.book_id now := by
  rcases c with _ | u
  · exact Or.inl rfl
  by_cases hu0 : u = ""
  · subst hu0
    exact Or.inl rfl
  rcases hps : parseOid s with _ | o
  · left
    simp [return_book, truthy, hu0, get_loan_by_id, hps]
  rcases hfl : findDoc db.loans o with _ | loan
  · left
    simp [return_book, truthy, hu0, get_loan_by_id, hps, hfl]
  by_cases hown : oidToHex loan.user_id = u
  · by_cases hst : loan.status = "returned"
    · left
      simp [return_book, truthy, hu0, get_loan_by_id, hps, hfl, hown, hst]
    · right
      refine ⟨u, o, loan, rfl, rfl, hfl, hown, hst, ?_⟩
      have hb : loan.book_id < 16 ^ 24 := hbound _ (findDoc_mem hfl)
      rw [return_book_success db now hps hfl hown hst hb]
  · left
    simp [return_book, truthy, hu0, get_loan_by_id, hps, hfl, hown]

/-! ## Lemmas: invariant preservation -/

lemma hasActive_append {l : List (Oid × Loan)} {q : Oid × Loan} {bid : Oid} :
    HasActive (l ++ [q]) bid ↔
      HasActive l bid ∨ (q.2.book_id = bid ∧ q.2.status = "active") := by
  constructor
  · rintro ⟨p, hp, h1, h2⟩
    rcases List.mem_append.1 hp with hp | hp
    · exact Or.inl ⟨p, hp, h1, h2⟩
    · rcases List.mem_singleton.1 hp with rfl
      exact Or.inr ⟨h1, h2⟩
  · rintro (⟨p, hp, h1, h2⟩ | ⟨h1, h2⟩)
    · exact ⟨p, List.mem_append_left _ hp, h1, h2⟩
    · exact ⟨q, List.mem_append_right _ (List.mem_singleton_self _), h1, h2⟩

lemma noActive_of_availInv {db : DB} {bo : Oid} {bk : Book}
    (hAvail : AvailInv db) (hf : findDoc db.books bo = some bk)
    (hav : bk.available = true) : ¬ HasActive db.loans bo := by
  intro h
  have hm := findDoc_mem hf
  have hfalse : bk.available = false := (hAvail (bo, bk) hm).2 h
  rw [hav] at hfalse
  exact Bool.noConfusion hfalse

lemma lendInv_borrowSucc {db : DB} {uo bo : Oid} {bk : Book} (now : Nat)
    (hI : LendInv db) (hf : findDoc db.books bo = some bk) (hav : bk.available = true)
    (hbo : bo < 16 ^ 24) :
    LendInv (borrowSucc db uo bo now) := by
  obtain ⟨⟨hbnd, hlnd, hfresh, hbound⟩, hstat, hAvail, hpw⟩ := hI
  have hNoAct : ¬ HasActive db.loans bo := noActive_of_availInv hAvail hf hav
  refine ⟨⟨?_, ?_, ?_, ?_⟩, ?_, ?_, ?_⟩
  · simpa only [borrowSucc, updateFirst_map_fst] using hbnd
  · simp only [borrowSucc, List.map_append, List.map_cons, List.map_nil]
    rw [List.nodup_append]
    refine ⟨hlnd, List.nodup_singleton _, ?_⟩
    intro a ha hb
    rcases List.mem_map.1 ha with ⟨p, hp, rfl⟩
    rcases List.mem_singleton.1 hb with h
    exact absurd h (Nat.ne_of_lt (hfresh p hp))
  · intro p hp
    simp only [borrowSucc] at hp
    rcases List.mem_append.1 hp with hp | hp
    · exact Nat.lt_succ_of_lt (hfresh p hp)
    · rcases List.mem_singleton.1 hp with rfl
      exact Nat.lt_succ_self _
  · intro p hp
    simp only [borrowSucc] at hp
    rcases List.mem_append.1 hp with hp | hp
    · exact hbound p hp
    · rcases List.mem_singleton.1 hp with rfl
      exact hbo
  · intro p hp
    simp only [borrowSucc] at hp
    rcases List.mem_append.1 hp with hp | hp
    · exact hstat p hp
    · rcases List.mem_singleton.1 hp with rfl
      exact Or.inl rfl
  · intro p hp
    simp only [borrowSucc] at hp ⊢
    rcases (mem_updateFirst_nodup hbnd bo _ p).1 hp with ⟨hpold, hpne⟩ | ⟨x, hx, rfl⟩
    · have hIff := hAvail p hpold
      rw [hasActive_append]
      constructor
      · intro h
        exact Or.inl (hIff.1 h)
      · rintro (h | ⟨hb, _⟩)
        · exact hIff.2 h
        · exact absurd hb.symm hpne
    · have hxbk : x = bk := by
        rw [hx] at hf
        exact Option.some.inj hf
      subst hxbk
      rw [hasActive_append]
      simp [mkActiveLoan]
  · simp only [borrowSucc, PairwiseActive]
    rw [List.pairwise_append]
    refine ⟨hpw, List.pairwise_singleton _ _, ?_⟩
    intro p hp q hq hpact hqact
    rcases List.mem_singleton.1 hq with rfl
    simp only [mkActiveLoan]
    intro heq
    exact hNoAct ⟨p, hp, heq, hpact⟩

lemma returned_ne_active : ("returned" : String) ≠ "active" := by decide

lemma pairwiseActive_updateReturn (l : List (Oid × Loan)) (o : Oid) (now : Nat)
    (h : PairwiseActive l) :
    PairwiseActive (updateFirst l o
      (fun x => { x with returned_date := some now, status := "returned" })) := by
  induction l with
  | nil => exact h
  | cons q t ih =>
    obtain ⟨j, y⟩ := q
    rw [PairwiseActive, List.pairwise_cons] at h
    unfold updateFirst
    split
    · rw [PairwiseActive, List.pairwise_cons]
      refine ⟨?_, h.2⟩
      intro q' _ habs
      exact absurd habs returned_ne_active
    · rw [PairwiseActive, List.pairwise_cons]
      refine ⟨?_, ih h.2⟩
      intro q' hq'
      rcases mem_updateFirst hq' with hq2 | ⟨x, _, rfl⟩
      · exact h.1 q' hq2
      · intro _ habs
        exact absurd habs returned_ne_active

lemma statusActive_of_mem {db : DB} {o : Oid} {loan : Loan}
    (hstat : StatusOK db.loans) (hf : findDoc db.loans o = some loan)
    (hst : loan.status ≠ "returned") : loan.status = "active" :=
  (hstat _ (findDoc_mem hf)).resolve_right hst

lemma noOtherActive {db : DB} {o : Oid} {loan : Loan}
    (hlnd : (db.loans.map Prod.fst).Nodup) (hpw : PairwiseActive db.loans)
    (hstat : StatusOK db.loans) (hf : findDoc db.loans o = some loan)
    (hst : loan.status ≠ "returned") :
    ∀ p ∈ db.loans, p.1 ≠ o → p.2.status = "active" → p.2.book_id ≠ loan.book_id := by
  intro p hp hne hpact
  have hact : loan.status = "active" := statusActive_of_mem hstat hf hst
  have hmem : (o, loan) ∈ db.loans := findDoc_mem hf
  have hsymm : Symmetric (fun (a b : Oid × Loan) =>
      a.2.status = "active" → b.2.status = "active" → a.2.book_id ≠ b.2.book_id) := by
    intro a b hab hb ha
    exact fun he => hab ha hb he.symm
  have hne2 : p ≠ (o, loan) := by
    intro he
    rw [he] at hne
    exact hne rfl
  exact List.Pairwise.forall hsymm hpw hp hmem hne2 hpact hact

lemma hasActive_updateReturn_ne {db : DB} {o : Oid} {loan : Loan} {c : Oid} (now : Nat)
    (hlnd : (db.loans.map Prod.fst).Nodup)
    (hf : findDoc db.loans o = some loan) (hc : c ≠ loan.book_id) :
    HasActive (updateFirst db.loans o
        (fun x => { x with returned_date := some now, status := "returned" })) c ↔
      HasActive db.loans c := by
  constructor
  · rintro ⟨q, hq, h1, h2⟩
    rcases (mem_updateFirst_nodup hlnd o _ q).1 hq with ⟨hq2, _⟩ | ⟨x, _, rfl⟩
    · exact ⟨q, hq2, h1, h2⟩
    · exact absurd h2 returned_ne_active
  · rintro ⟨q, hq, h1, h2⟩
    by_cases hqo : q.1 = o
    · exfalso
      have hq' : (o, q.2) ∈ db.loans := by
        rw [← hqo]
        exact hq
      have := findDoc_of_mem_nodup hlnd hq'
      rw [hf] at this
      have hql : loan = q.2 := Option.some.inj this
      rw [← hql] at h1
      exact hc h1.symm
    · refine ⟨q, (mem_updateFirst_nodup hlnd o _ q).2 (Or.inl ⟨hq, hqo⟩), h1, h2⟩

lemma noActive_updateReturn {db : DB} {o : Oid} {loan : Loan} (now : Nat)
    (hlnd : (db.loans.map Prod.fst).Nodup) (hpw : PairwiseActive db.loans)
    (hstat : StatusOK db.loans) (hf : findDoc db.loans o = some loan)
    (hst : loan.status ≠ "returned") :
    ¬ HasActive (updateFirst db.loans o
        (fun x => { x with returned_date := some now, status := "returned" }))
      loan.book_id := by
  rintro ⟨q, hq, h1, h2⟩
  rcases (mem_updateFirst_nodup hlnd o _ q).1 hq with ⟨hq2, hqo⟩ | ⟨x, _, rfl⟩
  · exact noOtherActive hlnd hpw hstat hf hst q hq2 hqo h2 h1
  · exact absurd h2 returned_ne_active

lemma lendInv_returnSucc {db : DB} {o : Oid} {loan : Loan} (now : Nat)
    (hI : LendInv db) (hf : findDoc db.loans o = some loan)
    (hst : loan.status ≠ "returned") :
    LendInv (returnSucc db o loan.book_id now) := by
  obtain ⟨⟨hbnd, hlnd, hfresh, hbound⟩, hstat, hAvail, hpw⟩ := hI
  have hbooks_fst :
      (returnSucc db o loan.book_id now).books.map Prod.fst = db.books.map Prod.fst := by
    unfold returnSucc
    rcases findDoc db.books loan.book_id with _ | bk2
    · rfl
    · exact updateFirst_map_fst _ _ _
  have hloans :
      (returnSucc db o loan.book_id now).loans = updateFirst db.loans o
        (fun x => { x with returned_date := some now, status := "returned" }) := by
    unfold returnSucc
    rcases findDoc db.books loan.book_id with _ | bk2 <;> rfl
  have hnext : (returnSucc db o loan.book_id now).nextId = db.nextId := by
    unfold returnSucc
    rcases findDoc db.books loan.book_id with _ | bk2 <;> rfl
  refine ⟨⟨?_, ?_, ?_, ?_⟩, ?_, ?_, ?_⟩
  · rw [hbooks_fst]
    exact hbnd
  · rw [hloans, updateFirst_map_fst]
    exact hlnd
  · rw [hnext]
    intro p hp
    rw [hloans] at hp
    rcases mem_updateFirst hp with hp2 | ⟨x, hx, rfl⟩
    · exact hfresh p hp2
    · exact hfresh (o, x) hx
  · intro p hp
    rw [hloans] at hp
    rcases mem_updateFirst hp with hp2 | ⟨x, hx, rfl⟩
    · exact hbound p hp2
    · exact hbound (o, x) hx
  · intro p hp
    rw [hloans] at hp
    rcases mem_updateFirst hp with hp2 | ⟨x, hx, rfl⟩
    · exact hstat p hp2
    · exact Or.inr rfl
  · intro p hp
    rw [hloans]
    unfold returnSucc at hp
    rcases hfb : findDoc db.books loan.book_id with _ | bk2 <;> rw [hfb] at hp
    · have hpne : p.1 ≠ loan.book_id := (findDoc_eq_none_iff.1 hfb) p hp
      rw [hasActive_updateReturn_ne now hlnd hf hpne]
      exact hAvail p hp
    · simp only at hp
      rcases (mem_updateFirst_nodup hbnd loan.book_id _ p).1 hp with ⟨hp2, hpne⟩ |
        ⟨x, hx, rfl⟩
      · rw [hasActive_updateReturn_ne now hlnd hf hpne]
        exact hAvail p hp2
      · apply iff_of_false
        · simp
        · exact noActive_updateReturn now hlnd hpw hstat hf hst
  · rw [hloans]
    exact pairwiseActive_updateReturn _ _ _ hpw

lemma wf_borrowSucc {db : DB} {uo bo : Oid} (now : Nat) (hwf : WF db)
    (hbo : bo < 16 ^ 24) : WF (borrowSucc db uo bo now) := by
  obtain ⟨hbnd, hlnd, hfresh, hbound⟩ := hwf
  refine ⟨?_, ?_, ?_, ?_⟩
  · simpa only [borrowSucc, updateFirst_map_fst] using hbnd
  · simp only [borrowSucc, List.map_append, List.map_cons, List.map_nil]
    rw [List.nodup_append]
    refine ⟨hlnd, List.nodup_singleton _, ?_⟩
    intro a ha hb
    rcases List.mem_map.1 ha with ⟨p, hp, rfl⟩
    rcases List.mem_singleton.1 hb with h
    exact absurd h (Nat.ne_of_lt (hfresh p hp))
  · intro p hp
    simp only [borrowSucc] at hp
    rcases List.mem_append.1 hp with hp | hp
    · exact Nat.lt_succ_of_lt (hfresh p hp)
    · rcases List.mem_singleton.1 hp with rfl
      exact Nat.lt_succ_self _
  · intro p hp
    simp only [borrowSucc] at hp
    rcases List.mem_append.1 hp with hp | hp
    · exact hbound p hp
    · rcases List.mem_singleton.1 hp with rfl
      exact hbo

lemma borrowOnlyInv_borrowSucc {db : DB} {uo bo : Oid} {bk : Book} (now : Nat)
    (hI : BorrowOnlyInv db) (hf : findDoc db.books bo = some bk)
    (hav : bk.available = true) (hbo : bo < 16 ^ 24) :
    BorrowOnlyInv (borrowSucc db uo bo now) := by
  obtain ⟨hwf, hActU, hpw⟩ := hI
  obtain ⟨hbnd, hlnd, hfresh, hbound⟩ := hwf
  have hNoAct : ¬ HasActive db.loans bo := by
    rintro ⟨q, hq, h1, h2⟩
    obtain ⟨b, hb, hb1, hb2⟩ := hActU q hq h2
    have hb0 : (bo, b.2) ∈ db.books := by
      have hbo1 : b.1 = bo := by rw [hb1, h1]
      rw [← hbo1]
      exact hb
    have := findDoc_of_mem_nodup hbnd hb0
    rw [hf] at this
    have hbk : bk = b.2 := Option.some.inj this
    rw [← hbk] at hb2
    rw [hav] at hb2
    exact Bool.noConfusion hb2
  refine ⟨wf_borrowSucc now ⟨hbnd, hlnd, hfresh, hbound⟩ hbo, ?_, ?_⟩
  · intro p hp hpact
    simp only [borrowSucc] at hp ⊢
    rcases List.mem_append.1 hp with hp | hp
    · obtain ⟨b, hb, hb1, hb2⟩ := hActU p hp hpact
      have hbne : b.1 ≠ bo := by
        intro he
        have hb0 : (bo, b.2) ∈ db.books := by
          rw [← he]
          exact hb
        have := findDoc_of_mem_nodup hbnd hb0
        rw [hf] at this
        have hbk : bk = b.2 := Option.some.inj this
        rw [← hbk] at hb2
        rw [hav] at hb2
        exact Bool.noConfusion hb2
      refine ⟨b, (mem_updateFirst_nodup hbnd bo _ b).2 (Or.inl ⟨hb, hbne⟩), hb1, hb2⟩
    · rcases List.mem_singleton.1 hp with rfl
      refine ⟨(bo, { bk with available := false, updated_at := now }),
        (mem_updateFirst_nodup hbnd bo _ _).2 (Or.inr ⟨bk, hf, rfl⟩), rfl, rfl⟩
  · simp only [borrowSucc, PairwiseActive]
    rw [List.pairwise_append]
    refine ⟨hpw, List.pairwise_singleton _ _, ?_⟩
    intro p hp q hq hpact hqact
    rcases List.mem_singleton.1 hq with rfl
    simp only [mkActiveLoan]
    intro heq
    exact hNoAct ⟨p, hp, heq, hpact⟩

lemma lendStep_inv {a b : DB} (hI : LendInv a) (hs : LendStep a b) : LendInv b := by
  cases hs with
  | borrow c s now =>
    rcases borrow_book_state a c s now with h |
      ⟨u, sid, uo, bo, bk, _, _, hpu, hpb, hfb, hav, h⟩
    · rwa [h]
    · rw [h]
      exact lendInv_borrowSucc now hI hfb hav (parseOid_lt hpb)
  | ret c s now =>
    rcases return_book_state a c s now hI.1.2.2.2 with h |
      ⟨u, o, loan, _, hps, hfl, hown, hst, h⟩
    · rwa [h]
    · rw [h]
      exact lendInv_returnSucc now hI hfl hst

lemma lendReach_inv {a b : DB} (hI : LendInv a) (hr : LendReach a b) : LendInv b := by
  induction hr with
  | refl => exact hI
  | step hr hs ih => exact lendStep_inv ih hs

lemma borrowReach_inv {a b : DB} (hI : BorrowOnlyInv a) (hr : BorrowReach a b) :
    BorrowOnlyInv b := by
  induction hr with
  | refl => exact hI
  | step c s now hr ih =>
    rcases borrow_book_state _ c s now with h |
      ⟨u, sid, uo, bo, bk, _, _, hpu, hpb, hfb, hav, h⟩
    · rwa [h]
    · rw [h]
      exact borrowOnlyInv_borrowSucc now ih hfb hav (parseOid_lt hpb)

lemma atMostOne_of_pairwise {l : List (Oid × Loan)} (h : PairwiseActive l) :
    AtMostOneActive l := by
  intro bid
  unfold PairwiseActive at h
  induction h with
  | nil => simp
  | @cons a t hrel hpw ih =>
    rw [List.countP_cons]
    by_cases hp : (a.2.book_id == bid && a.2.status == "active") = true
    · have h0 : t.countP (fun q => q.2.book_id == bid && q.2.status == "active") = 0 := by
        rw [List.countP_eq_zero]
        intro q hq hq2
        simp only [Bool.and_eq_true, beq_iff_eq] at hp hq2
        exact hrel q hq hp.2 hq2.2 (by rw [hp.1, hq2.1])
      rw [h0]
      simp [hp]
    · simp [hp]
      exact ih

/-! ## Claim theorems -/

/-- C1: for every book, under serialized borrow and return operations that
complete both of their writes (the only kind of step in this embedding),
the `available` flag of the book is `false` if and only if some loan referencing
that book has `status == "active"`.  The invariant bundle `LendInv` holds
in particular when books and loans are consistent to start with, and
`AvailInv` states the biconditional for every stored book. -/
theorem c1_availability_iff_active_loan (db0 db : DB) (h0 : LendInv db0)
    (hr : LendReach db0 db) : AvailInv db :=
  (lendReach_inv h0 hr).2.2.1

/-- Witness fixture: one available book with identifier 2. -/
def bkW : Book :=
  { title := "Dune"
    author := "Frank Herbert"
    year := some 1965
    isbn := "9780441172719"
    description := ""
    genre := "Science Fiction"
    language := "English"
    available := true
    created_at := 0
    updated_at := 0 }

/-- Witness fixture: a database with one available book and no loans. -/
def dbW0 : DB := { books := [(2, bkW)], loans := [], nextId := 9 }

/-- Witness fixture: the identity string of the caller, `str(ObjectId)` form. -/
def uW : String := "000000000000000000000003"

/-- Witness fixture: the book identifier string for book 2. -/
def sW : String := "000000000000000000000002"

/-- Witness fixture: the state after borrowing book 2 at time 7. -/
def dbW1 : DB := (borrow_book dbW0 (some uW) (some sW) 7).2

theorem c1_availability_iff_active_loan_witness : AvailInv dbW1 :=
  c1_availability_iff_active_loan dbW0 dbW1
    (by unfold LendInv WF StatusOK AvailInv PairwiseActive HasActive; decide)
    (LendReach.step (LendReach.refl dbW0) (LendStep.borrow dbW0 (some uW) (some sW) 7))

/-- C2: for every state reachable purely through serialized borrow
operations from a well-formed state with no loans, at most one loan with
`status == "active"` references any given book. -/
theorem c2_at_most_one_active_loan (db0 db : DB) (hwf : WF db0)
    (hnl : db0.loans = []) (hr : BorrowReach db0 db) : AtMostOneActive db.loans := by
  have hI0 : BorrowOnlyInv db0 := by
    refine ⟨hwf, ?_, ?_⟩
    · intro p hp
      rw [hnl] at hp
      simp at hp
    · unfold PairwiseActive
      rw [hnl]
      exact List.Pairwise.nil
  exact atMostOne_of_pairwise (borrowReach_inv hI0 hr).2.2

theorem c2_at_most_one_active_loan_witness : AtMostOneActive dbW1.loans :=
  c2_at_most_one_active_loan dbW0 dbW1 (by unfold WF; decide) rfl
    (BorrowReach.step (some uW) (some sW) 7 (BorrowReach.refl dbW0))

lemma get_book_by_id_inv {db : DB} {s : String} {bk : Book}
    (h : get_book_by_id db s = some bk) :
    ∃ bo, parseOid s = some bo ∧ findDoc db.books bo = some bk := by
  unfold get_book_by_id at h
  rcases hps : parseOid s with _ | bo <;> rw [hps] at h
  · exact absurd h (by simp)
  · exact ⟨bo, rfl, h⟩

lemma get_loan_by_id_inv {db : DB} {s : String} {loan : Loan}
    (h : get_loan_by_id db s = some loan) :
    ∃ o, parseOid s = some o ∧ findDoc db.loans o = some loan := by
  unfold get_loan_by_id at h
  rcases hps : parseOid s with _ | o <;> rw [hps] at h
  · exact absurd h (by simp)
  · exact ⟨o, rfl, h⟩

/-- C3: for every authenticated caller and every stored book whose
`available` flag is `false`, borrowing it fails with the Conflict outcome
(HTTP 400, "Book is not available"), creates no loan, and leaves the whole
database — in particular the book document — unchanged. -/
theorem c3_borrow_unavailable_conflict (db : DB) (u s : String) (now : Nat)
    (hu : u ≠ "") (bk : Book) (hbk : get_book_by_id db s = some bk)
    (hav : bk.available = false) :
    borrow_book db (some u) (some s) now = (.bookNotAvailable, db) := by
  obtain ⟨bo, hps, hfb⟩ := get_book_by_id_inv hbk
  have hs0 : s ≠ "" := parseOid_ne_empty hps
  simp [borrow_book, truthy, hu, hs0, get_book_by_id, hps, hfb, hav]

/-- Witness fixture: the same book as `bkW` but currently borrowed. -/
def bkW2 : Book := { bkW with available := false }

/-- Witness fixture: a database holding only the unavailable book 4. -/
def dbW2 : DB := { books := [(4, bkW2)], loans := [], nextId := 9 }

/-- Witness fixture: the book identifier string for book 4. -/
def sW4 : String := "000000000000000000000004"

theorem c3_borrow_unavailable_conflict_witness :
    borrow_book dbW2 (some uW) (some sW4) 7 = (.bookNotAvailable, dbW2) :=
  c3_borrow_unavailable_conflict dbW2 uW sW4 7 (by decide) bkW2 (by decide) rfl

lemma findDoc_append_fresh {α : Type} {l : List (Oid × α)} {i : Oid}
    (h : ∀ p ∈ l, p.1 ≠ i) (x : α) : findDoc (l ++ [(i, x)]) i = some x := by
  induction l with
  | nil => simp [findDoc]
  | cons q t ih =>
    obtain ⟨j, y⟩ := q
    have hj : j ≠ i := h (j, y) (List.mem_cons_self _ _)
    rw [List.cons_append]
    unfold findDoc
    rw [if_neg hj]
    exact ih (fun p hp => h p (List.mem_cons_of_mem _ hp))

lemma updateFirst_append_fresh {α : Type} {l : List (Oid × α)} {i : Oid}
    (h : ∀ p ∈ l, p.1 ≠ i) (x : α) (f : α → α) :
    updateFirst (l ++ [(i, x)]) i f = l ++ [(i, f x)] := by
  induction l with
  | nil => simp [updateFirst]
  | cons q t ih =>
    obtain ⟨j, y⟩ := q
    have hj : j ≠ i := h (j, y) (List.mem_cons_self _ _)
    rw [List.cons_append, List.cons_append]
    unfold updateFirst
    rw [if_neg hj, ih (fun p hp => h p (List.mem_cons_of_mem _ hp))]

lemma findDoc_updateFirst_self {α : Type} {l : List (Oid × α)} {i : Oid} {x : α}
    (h : findDoc l i = some x) (f : α → α) :
    findDoc (updateFirst l i f) i = some (f x) := by
  induction l with
  | nil => simp [findDoc] at h
  | cons q t ih =>
    obtain ⟨j, y⟩ := q
    by_cases hj : j = i
    · subst hj
      have hy : y = x := by
        have h2 : some y = some x := by simpa [findDoc] using h
        exact Option.some.inj h2
      subst hy
      simp [updateFirst, findDoc]
    · have h2 : findDoc t i = some x := by simpa [findDoc, hj] using h
      simp [updateFirst, findDoc, hj, ih h2]

/-- C4: borrowing an available book and immediately returning it through
the serialized identifier of the returned loan restores the book to
`available == true` and leaves exactly one loan document for the episode,
with `status == "returned"` and a returned timestamp at least the borrowed
timestamp. -/
theorem c4_borrow_then_return_round_trip (db : DB) (u s : String) (uo : Oid)
    (hwf : WF db) (hnext : db.nextId < 16 ^ 24)
    (hu : parseOid u = some uo) (hcanon : oidToHex uo = u)
    (bk : Book) (hbk : get_book_by_id db s = some bk) (hav : bk.available = true)
    (t1 t2 : Nat) (ht : t1 ≤ t2) :
    ∃ lid loan db1 db2,
      borrow_book db (some u) (some s) t1 = (.borrowed lid loan, db1) ∧
      return_book db1 (some u) (oidToHex lid) t2 = (.returnedOk, db2) ∧
      (∃ b ∈ db2.books, b.1 = loan.book_id ∧ b.2.available = true) ∧
      db2.loans.countP (fun p => p.1 == lid) = 1 ∧
      (∀ p ∈ db2.loans, p.1 = lid →
        p.2.status = "returned" ∧ p.2.returned_date = some t2 ∧
        p.2.borrowed_date = t1 ∧ p.2.borrowed_date ≤ t2) := by
  obtain ⟨bo, hps, hfb⟩ := get_book_by_id_inv hbk
  obtain ⟨hbnd, hlnd, hfresh, hbound⟩ := hwf
  set lid := db.nextId with hlid
  set loan := mkActiveLoan uo bo t1 with hloan
  set db1 := borrowSucc db uo bo t1 with hdb1
  have h1 : borrow_book db (some u) (some s) t1 = (.borrowed lid loan, db1) :=
    borrow_book_success db t1 hu hps hfb hav
  have hfreshkeys : ∀ p ∈ db.loans, p.1 ≠ lid :=
    fun p hp => Nat.ne_of_lt (hfresh p hp)
  have hdb1loans : db1.loans = db.loans ++ [(lid, loan)] := rfl
  have hfl1 : findDoc db1.loans lid = some loan := by
    rw [hdb1loans]
    exact findDoc_append_fresh hfreshkeys loan
  have hown : oidToHex loan.user_id = u := hcanon
  have hst : loan.status ≠ "returned" := by
    intro h
    exact returned_ne_active h.symm
  have hbb : loan.book_id < 16 ^ 24 := parseOid_lt hps
  have hps2 : parseOid (oidToHex lid) = some lid := parseOid_oidToHex hnext
  set db2 := returnSucc db1 lid loan.book_id t2 with hdb2
  have h2 : return_book db1 (some u) (oidToHex lid) t2 = (.returnedOk, db2) :=
    return_book_success db1 t2 hps2 hfl1 hown hst hbb
  refine ⟨lid, loan, db1, db2, h1, h2, ?_, ?_, ?_⟩
  · have hfb1 : findDoc db1.books bo =
        some { bk with available := false, updated_at := t1 } :=
      findDoc_updateFirst_self hfb _
    have hbooks2 : db2.books = updateFirst db1.books bo
        (fun b => { b with available := true, updated_at := t2 }) := by
      rw [hdb2]
      unfold returnSucc
      have : loan.book_id = bo := rfl
      rw [this, hfb1]
    have hfb2 : findDoc db2.books bo =
        some { bk with available := true, updated_at := t2 } := by
      rw [hbooks2]
      exact findDoc_updateFirst_self hfb1 _
    exact ⟨(bo, { bk with available := true, updated_at := t2 }),
      findDoc_mem hfb2, rfl, rfl⟩
  · have hloans2 : db2.loans = db.loans ++
        [(lid, { loan with returned_date := some t2, status := "returned" })] := by
      rw [hdb2]
      unfold returnSucc
      rcases findDoc db1.books loan.book_id with _ | b2 <;>
        simp only [hdb1loans] <;>
        exact updateFirst_append_fresh hfreshkeys loan _
    rw [hloans2, List.countP_append]
    have h0 : db.loans.countP (fun p => p.1 == lid) = 0 := by
      rw [List.countP_eq_zero]
      intro q hq hq2
      rw [beq_iff_eq] at hq2
      exact hfreshkeys q hq hq2
    rw [h0]
    simp
  · have hloans2 : db2.loans = db.loans ++
        [(lid, { loan with returned_date := some t2, status := "returned" })] := by
      rw [hdb2]
      unfold returnSucc
      rcases findDoc db1.books loan.book_id with _ | b2 <;>
        simp only [hdb1loans] <;>
        exact updateFirst_append_fresh hfreshkeys loan _
    intro p hp hpk
    rw [hloans2] at hp
    rcases List.mem_append.1 hp with hp | hp
    · exact absurd hpk (hfreshkeys p hp)
    · rcases List.mem_singleton.1 hp with rfl
      exact ⟨rfl, rfl, rfl, ht⟩

theorem c4_borrow_then_return_round_trip_witness :
    ∃ lid loan db1 db2,
      borrow_book dbW0 (some uW) (some sW) 7 = (.borrowed lid loan, db1) ∧
      return_book db1 (some uW) (oidToHex lid) 11 = (.returnedOk, db2) ∧
      (∃ b ∈ db2.books, b.1 = loan.book_id ∧ b.2.available = true) ∧
      db2.loans.countP (fun p => p.1 == lid) = 1 ∧
      (∀ p ∈ db2.loans, p.1 = lid →
        p.2.status = "returned" ∧ p.2.returned_date = some 11 ∧
        p.2.borrowed_date = 7 ∧ p.2.borrowed_date ≤ 11) :=
  c4_borrow_then_return_round_trip dbW0 uW sW 3 (by unfold WF; decide) (by decide)
    (by decide) (by decide) bkW (by decide) rfl 7 11 (by decide)

lemma borrow_book_borrowed_inv {db : DB} {c s : Option String} {now : Nat}
    {lid : Oid} {loan : Loan} {db2 : DB}
    (h : borrow_book db c s now = (.borrowed lid loan, db2)) :
    ∃ u sid uo bo bk,
      c = some u ∧ s = some sid ∧ parseOid u = some uo ∧ parseOid sid = some bo ∧
      findDoc db.books bo = some bk ∧ bk.available = true ∧
      lid = db.nextId ∧ loan = mkActiveLoan uo bo now ∧
      db2 = borrowSucc db uo bo now := by
  rcases c with _ | u
  · simp [borrow_book, truthy] at h
  by_cases hu0 : u = ""
  · subst hu0
    simp [borrow_book, truthy] at h
  rcases s with _ | sid
  · simp [borrow_book, truthy, hu0] at h
  by_cases hs0 : sid = ""
  · subst hs0
    simp [borrow_book, truthy, hu0] at h
  rcases hpb : parseOid sid with _ | bo
  · simp [borrow_book, truthy, hu0, hs0, get_book_by_id, hpb] at h
  rcases hfb : findDoc db.books bo with _ | bk
  · simp [borrow_book, truthy, hu0, hs0, get_book_by_id, hpb, hfb] at h
  rcases hav : bk.available with _ | _
  · simp [borrow_book, truthy, hu0, hs0, get_book_by_id, hpb, hfb, hav] at h
  rcases hpu : parseOid u with _ | uo
  · simp [borrow_book, truthy, hu0, hs0, get_book_by_id, create_loan, hpb, hfb, hav,
      hpu] at h
  rw [borrow_book_success db now hpu hpb hfb hav] at h
  have h1 := congrArg Prod.fst h
  have h2 := congrArg Prod.snd h
  simp only [BorrowRes.borrowed.injEq] at h1
  exact ⟨u, sid, uo, bo, bk, rfl, rfl, hpu, hpb, hfb, hav, h1.1.symm, h1.2.symm, h2.symm⟩

/-- C5: a successful borrow performs, in order, (1) `create_loan`, which
appends one loan with `status = "active"`, `borrowed_date = now`,
`due_date = now + 14 days` and no returned timestamp, then (2)
`toggle_book_availability(book_id, False)`; afterwards exactly one new
active loan for the book exists and the flag of the stored book is `false`. -/
theorem c5_borrow_creates_loan_then_flips_book (db : DB) (u s : String) (now : Nat)
    (lid : Oid) (loan : Loan) (db2 : DB)
    (h : borrow_book db (some u) (some s) now = (.borrowed lid loan, db2)) :
    loan.status = "active" ∧ loan.borrowed_date = now ∧
    loan.due_date = now + 14 * 86400 ∧ loan.returned_date = none ∧
    ∃ uo bo db1,
      parseOid u = some uo ∧ parseOid s = some bo ∧ loan.book_id = bo ∧
      create_loan db u s now = some (lid, loan, db1) ∧
      db2 = (toggle_book_availability db1 s false now).2 ∧
      db1.loans = db.loans ++ [(lid, loan)] ∧
      (∃ b ∈ db2.books, b.1 = bo ∧ b.2.available = false) := by
  obtain ⟨u', sid, uo, bo, bk, hc, hsid, hpu, hpb, hfb, hav, hlid, hloan, hdb2⟩ :=
    borrow_book_borrowed_inv h
  obtain ⟨rfl⟩ : u' = u := by
    exact (Option.some.inj hc).symm
  obtain ⟨rfl⟩ : sid = s := by
    exact (Option.some.inj hsid).symm
  subst hloan
  subst hlid
  subst hdb2
  refine ⟨rfl, rfl, rfl, rfl, uo, bo, ?_, hpu, hpb, rfl, ?_, ?_, ?_, ?_⟩
  · exact
      { db with
        loans := db.loans ++ [(db.nextId, mkActiveLoan uo bo now)]
        nextId := db.nextId + 1 }
  · unfold create_loan
    rw [hpu, hpb]
    rfl
  · unfold toggle_book_availability update_book
    rw [hpb]
    simp only [hfb]
    rfl
  · rfl
  · have hfb2 : findDoc (borrowSucc db uo bo now).books bo =
        some { bk with available := false, updated_at := now } :=
      findDoc_updateFirst_self hfb _
    exact ⟨(bo, { bk with available := false, updated_at := now }),
      findDoc_mem hfb2, rfl, rfl⟩

theorem c5_borrow_creates_loan_then_flips_book_witness :
    (mkActiveLoan 3 2 7).status = "active" ∧ (mkActiveLoan 3 2 7).borrowed_date = 7 ∧
    (mkActiveLoan 3 2 7).due_date = 7 + 14 * 86400 ∧
    (mkActiveLoan 3 2 7).returned_date = none ∧
    ∃ uo bo db1,
      parseOid uW = some uo ∧ parseOid sW = some bo ∧ (mkActiveLoan 3 2 7).book_id = bo ∧
      create_loan dbW0 uW sW 7 = some (9, mkActiveLoan 3 2 7, db1) ∧
      dbW1 = (toggle_book_availability db1 sW false 7).2 ∧
      db1.loans = dbW0.loans ++ [(9, mkActiveLoan 3 2 7)] ∧
      (∃ b ∈ dbW1.books, b.1 = bo ∧ b.2.available = false) :=
  c5_borrow_creates_loan_then_flips_book dbW0 uW sW 7 9 (mkActiveLoan 3 2 7) dbW1
    (by decide)

/-- Witness fixture: a loan of book 2 by user 3 that was already returned. -/
def loanW : Loan :=
  { user_id := 3
    book_id := 2
    borrowed_date := 1
    due_date := 100
    returned_date := some 5
    status := "returned" }

/-- Witness fixture: the returned loan stored under identifier 9. -/
def dbW3 : DB := { books := [(2, bkW2)], loans := [(9, loanW)], nextId := 10 }

/-- Witness fixture: the loan identifier string for loan 9. -/
def sW9 : String := "000000000000000000000009"

/-- Witness fixture: the identity string of a different user, 4. -/
def uW4 : String := "000000000000000000000004"

/-- C6 counterexample: a Return issued on a loan with `status == "returned"`
by an authenticated caller who is not the borrower fails with the Forbidden
outcome, not the Conflict outcome, so "Return on a returned loan always
fails with Conflict" is false as stated. -/
theorem c6_counterexample_forbidden_on_returned_loan :
    get_loan_by_id dbW3 sW9 = some loanW ∧ loanW.status = "returned" ∧
    (return_book dbW3 (some uW4) sW9 5).1 = .forbiddenNotOwner ∧
    (return_book dbW3 (some uW4) sW9 5).1 ≠ .alreadyReturned := by decide

/-- C6 (amended): for every loan with `status == "returned"`, a Return by
the borrower of the loan fails with the Conflict outcome (HTTP 400,
"Book already returned"), and a Return by any caller never succeeds and
mutates neither the loan nor the book (the state is unchanged). -/
theorem c6_return_already_returned_conflict (db : DB) (u s : String) (now : Nat)
    (loan : Loan) (h : get_loan_by_id db s = some loan)
    (hst : loan.status = "returned") :
    (oidToHex loan.user_id = u → return_book db (some u) s now = (.alreadyReturned, db)) ∧
    (∀ c : Option String, (return_book db c s now).2 = db ∧
      (return_book db c s now).1 ≠ .returnedOk) := by
  obtain ⟨o, hps, hfl⟩ := get_loan_by_id_inv h
  constructor
  · intro hown
    have hu0 : u ≠ "" := by
      rw [← hown]
      exact oidToHex_ne_empty _
    simp [return_book, truthy, hu0, get_loan_by_id, hps, hfl, hown, hst]
  · intro c
    rcases c with _ | u'
    · exact ⟨rfl, fun habs => ReturnRes.noConfusion habs⟩
    by_cases hu0 : u' = ""
    · subst hu0
      exact ⟨rfl, fun habs => ReturnRes.noConfusion habs⟩
    by_cases hown : oidToHex loan.user_id = u'
    · have he : return_book db (some u') s now = (.alreadyReturned, db) := by
        simp [return_book, truthy, hu0, get_loan_by_id, hps, hfl, hown, hst]
      rw [he]
      exact ⟨rfl, fun habs => ReturnRes.noConfusion habs⟩
    · have he : return_book db (some u') s now = (.forbiddenNotOwner, db) := by
        simp [return_book, truthy, hu0, get_loan_by_id, hps, hfl, hown]
      rw [he]
      exact ⟨rfl, fun habs => ReturnRes.noConfusion habs⟩

theorem c6_return_already_returned_conflict_witness :
    return_book dbW3 (some uW) sW9 5 = (.alreadyReturned, dbW3) ∧
    (return_book dbW3 (some uW4) sW9 5).2 = dbW3 ∧
    (return_book dbW3 (some uW4) sW9 5).1 ≠ .returnedOk := by
  have h := c6_return_already_returned_conflict dbW3 uW sW9 5 loanW (by decide) rfl
  exact ⟨h.1 (by decide), (h.2 (some uW4)).1, (h.2 (some uW4)).2⟩

/-- Witness fixture: an active loan of book 2 by user 3. -/
def loanW2 : Loan :=
  { user_id := 3
    book_id := 2
    borrowed_date := 1
    due_date := 100
    returned_date := none
    status := "active" }

/-- Witness fixture: the active loan stored under identifier 9. -/
def dbW4 : DB := { books := [(2, bkW2)], loans := [(9, loanW2)], nextId := 10 }

/-- C7: for every stored loan and every authenticated caller whose identity
string differs from the serialized borrower identifier of the loan, Return
fails with the Forbidden outcome (HTTP 403, "Unauthorized") and performs no
mutation: the state is returned unchanged. -/
theorem c7_return_wrong_user_forbidden (db : DB) (u s : String) (now : Nat)
    (loan : Loan) (hu : u ≠ "") (h : get_loan_by_id db s = some loan)
    (hne : oidToHex loan.user_id ≠ u) :
    return_book db (some u) s now = (.forbiddenNotOwner, db) := by
  obtain ⟨o, hps, hfl⟩ := get_loan_by_id_inv h
  simp [return_book, truthy, hu, get_loan_by_id, hps, hfl, hne]

theorem c7_return_wrong_user_forbidden_witness :
    return_book dbW4 (some uW4) sW9 5 = (.forbiddenNotOwner, dbW4) :=
  c7_return_wrong_user_forbidden dbW4 uW4 sW9 5 loanW2 (by decide) (by decide)
    (by decide)

lemma zip_self_eq {α : Type} (l : List α) : ∀ pq ∈ l.zip l, pq.2 = pq.1 := by
  induction l with
  | nil => simp
  | cons x t ih =>
    intro pq hpq
    rcases List.mem_cons.1 hpq with rfl | hpq
    · rfl
    · exact ih pq hpq

lemma zip_self_countP_ne {α : Type} [DecidableEq α] (l : List α) :
    (l.zip l).countP (fun pq => decide (pq.1 ≠ pq.2)) = 0 := by
  rw [List.countP_eq_zero]
  intro pq hpq h
  rw [decide_eq_true_iff] at h
  exact h (zip_self_eq l pq hpq).symm

lemma updateFirst_length {α : Type} (l : List (Oid × α)) (i : Oid) (f : α → α) :
    (updateFirst l i f).length = l.length := by
  have h := congrArg List.length (updateFirst_map_fst l i f)
  rwa [List.length_map, List.length_map] at h

lemma zip_updateFirst_eq {α : Type} (l : List (Oid × α)) (i : Oid) (f : α → α) :
    ∀ pq ∈ l.zip (updateFirst l i f),
      pq.2 = pq.1 ∨ (pq.2.1 = pq.1.1 ∧ pq.2.2 = f pq.1.2) := by
  induction l with
  | nil => simp
  | cons q t ih =>
    obtain ⟨j, y⟩ := q
    unfold updateFirst
    split
    · intro pq hpq
      rcases List.mem_cons.1 hpq with rfl | hpq
      · exact Or.inr ⟨rfl, rfl⟩
      · exact Or.inl (zip_self_eq t pq hpq)
    · intro pq hpq
      rcases List.mem_cons.1 hpq with rfl | hpq
      · exact Or.inl rfl
      · exact ih pq hpq

lemma zip_updateFirst_countP {α : Type} [DecidableEq α] (l : List (Oid × α)) (i : Oid)
    (f : α → α) :
    (l.zip (updateFirst l i f)).countP (fun pq => decide (pq.1 ≠ pq.2)) ≤ 1 := by
  induction l with
  | nil => simp
  | cons q t ih =>
    obtain ⟨j, y⟩ := q
    unfold updateFirst
    split
    · rw [List.zip_cons_cons, List.countP_cons, zip_self_countP_ne]
      split <;> simp
    · rw [List.zip_cons_cons, List.countP_cons]
      have h0 : (decide (((j, y), (j, y)).1 ≠ ((j, y), (j, y)).2)) = false := by
        simp
      rw [h0]
      simpa using ih

/-- C8: loan documents produced or mutated by the ledger primitives satisfy
"returned timestamp present iff `status == "returned"`": `create_loan`
builds the document with `status = "active"` and no returned timestamp, and
`return_loan` is a single-document update (at most one stored document
changes, the collection length is unchanged) that sets `status` and
`returned_date` together in its one `$set`. -/
theorem c8_returned_timestamp_iff_returned_status :
    (∀ (db : DB) (u s : String) (now : Nat) (lid : Oid) (loan : Loan) (db1 : DB),
      create_loan db u s now = some (lid, loan, db1) →
      loan.status = "active" ∧ loan.returned_date = none ∧
      (loan.returned_date.isSome ↔ loan.status = "returned")) ∧
    (∀ (db : DB) (s : String) (now : Nat) (r : Bool) (db1 : DB),
      return_loan db s now = (r, db1) →
      db1.loans.length = db.loans.length ∧
      (db.loans.zip db1.loans).countP (fun pq => decide (pq.1 ≠ pq.2)) ≤ 1 ∧
      ∀ pq ∈ db.loans.zip db1.loans,
        pq.2 = pq.1 ∨
        (pq.2.1 = pq.1.1 ∧
          pq.2.2 = { pq.1.2 with returned_date := some now, status := "returned" } ∧
          (pq.2.2.returned_date.isSome ↔ pq.2.2.status = "returned"))) := by
  constructor
  · intro db u s now lid loan db1 h
    rcases hpu : parseOid u with _ | uo <;> rcases hpb : parseOid s with _ | bo <;>
      simp [create_loan, hpu, hpb] at h
    obtain ⟨-, h2, -⟩ := h
    rw [← h2]
    exact ⟨rfl, rfl, by simp⟩
  · intro db s now r db1 h
    have hid : db1 = db ∨ ∃ o, parseOid s = some o ∧
        db1.loans = updateFirst db.loans o
          (fun x => { x with returned_date := some now, status := "returned" }) := by
      unfold return_loan at h
      rcases hps : parseOid s with _ | o <;> simp only [hps] at h
      · exact Or.inl (congrArg Prod.snd h).symm
      rcases hfl : findDoc db.loans o with _ | l0 <;> simp only [hfl] at h
      · exact Or.inl (congrArg Prod.snd h).symm
      · right
        refine ⟨o, rfl, ?_⟩
        injection h with h1 h2
        subst h2
        rfl
    rcases hid with rfl | ⟨o, hps, hloans⟩
    · refine ⟨rfl, ?_, ?_⟩
      · rw [zip_self_countP_ne]
        norm_num
      · intro pq hpq
        exact Or.inl (zip_self_eq _ pq hpq)
    · rw [hloans]
      refine ⟨updateFirst_length _ _ _, zip_updateFirst_countP _ _ _, ?_⟩
      intro pq hpq
      rcases zip_updateFirst_eq db.loans o _ pq hpq with h1 | ⟨h1, h2⟩
      · exact Or.inl h1
      · refine Or.inr ⟨h1, h2, ?_⟩
        rw [h2]
        simp

/-- Witness fixture: the database state `create_loan dbW0 uW sW 7` leaves. -/
def dbW0C : DB :=
  { books := [(2, bkW)], loans := [(9, mkActiveLoan 3 2 7)], nextId := 10 }

/-- Witness fixture: the loan of `dbW4` after `return_loan` at time 5. -/
def loanW2R : Loan := { loanW2 with returned_date := some 5, status := "returned" }

/-- Witness fixture: the database state `return_loan dbW4 sW9 5` leaves. -/
def dbW5 : DB := { books := [(2, bkW2)], loans := [(9, loanW2R)], nextId := 10 }

theorem c8_returned_timestamp_iff_returned_status_witness :
    (mkActiveLoan 3 2 7).status = "active" ∧
    (mkActiveLoan 3 2 7).returned_date = none ∧
    dbW5.loans.length = dbW4.loans.length ∧
    (dbW4.loans.zip dbW5.loans).countP (fun pq => decide (pq.1 ≠ pq.2)) ≤ 1 := by
  have h1 := c8_returned_timestamp_iff_returned_status.1 dbW0 uW sW 7 9
    (mkActiveLoan 3 2 7) dbW0C (by decide)
  have h2 := c8_returned_timestamp_iff_returned_status.2 dbW4 sW9 5 true dbW5
    (by decide)
  exact ⟨h1.1, h1.2.1, h2.1, h2.2.1⟩

/-- C9 counterexample: the list-loans endpoint queried by the borrower of a
returned loan yields that returned loan, so "every loan in the returned
sequence has `status == active`" is false as stated: the query of the endpoint
(`get_user_loans`) matches on the user only and never filters on status. -/
theorem c9_counterexample_returned_loan_listed :
    (get_user_loans_endpoint dbW3 (some uW)).1 = .ok [⟨9, loanW, some bkW2⟩] ∧
    loanW.status = "returned" ∧ loanW.status ≠ "active" := by decide

/-- C9 (amended): for every authenticated caller, the list-loans endpoint
mutates no state, returns exactly the rows of `get_user_loans` — every loan
of the caller, of any status, each drawn from the stored loans collection —
and calling it twice with no intervening mutation yields the same result. -/
theorem c9_list_loans_read_only_and_repeatable (db : DB) (u : String) (hu : u ≠ "") :
    (get_user_loans_endpoint db (some u)).2 = db ∧
    (get_user_loans_endpoint db (some u)).1 = .ok (get_user_loans db u) ∧
    (get_user_loans_endpoint (get_user_loans_endpoint db (some u)).2 (some u)).1 =
      (get_user_loans_endpoint db (some u)).1 ∧
    (∀ uo, parseOid u = some uo →
      ∀ e ∈ get_user_loans db u, e.loan.user_id = uo ∧ (e.loanId, e.loan) ∈ db.loans) := by
  refine ⟨?_, ?_, ?_, ?_⟩
  · simp [get_user_loans_endpoint, truthy, hu]
  · simp [get_user_loans_endpoint, truthy, hu]
  · simp [get_user_loans_endpoint, truthy, hu]
  · intro uo hpu e he
    unfold get_user_loans at he
    rw [hpu] at he
    rcases List.mem_flatMap.1 he with ⟨p, hp, he2⟩
    obtain ⟨hpmem, hpuid⟩ := List.mem_filter.1 hp
    rw [beq_iff_eq] at hpuid
    rcases hmatch : db.books.filter (fun b => b.1 == p.2.book_id) with _ | ⟨b, bs⟩ <;>
      rw [hmatch] at he2
    · rcases List.mem_singleton.1 he2 with rfl
      exact ⟨hpuid, hpmem⟩
    · rcases List.mem_map.1 he2 with ⟨b2, _, rfl⟩
      exact ⟨hpuid, hpmem⟩

theorem c9_list_loans_read_only_and_repeatable_witness :
    (get_user_loans_endpoint dbW3 (some uW)).2 = dbW3 ∧
    (get_user_loans_endpoint dbW3 (some uW)).1 = .ok (get_user_loans dbW3 uW) ∧
    loanW.user_id = 3 ∧ ((9 : Oid), loanW) ∈ dbW3.loans := by
  have h := c9_list_loans_read_only_and_repeatable dbW3 uW (by decide)
  have h4 := h.2.2.2 3 (by decide) ⟨9, loanW, some bkW2⟩ (by decide)
  exact ⟨h.1, h.2.1, h4.1, h4.2⟩

/-- C10 counterexample: the empty string is not a well-formed object
identifier and `get_book_by_id` maps it to `None`, yet Borrow reports the
missing-parameter 400 response ("book_id is required"), not NotFound, so
"Borrow reports NotFound for any malformed id" is false as stated. -/
theorem c10_counterexample_empty_book_id :
    get_book_by_id dbW0 "" = none ∧
    borrow_book dbW0 (some uW) (some "") 7 = (.bookIdRequired, dbW0) ∧
    (BorrowRes.bookIdRequired ≠ BorrowRes.bookNotFound) := by decide

/-- C10 (amended): `get_book_by_id` and `get_loan_by_id` are total — a
malformed identifier yields `None` (the raised `InvalidId` is caught), as
does a well-formed identifier matching no document — so Borrow and Return
answer NotFound, never an Internal error, for every nonempty unresolvable
identifier; the empty string alone is rejected earlier by the
missing-parameter check of Borrow, while Return still answers NotFound
for it. -/
theorem c10_lookup_total_not_found (db : DB) (s u : String) (now : Nat) (hu : u ≠ "") :
    (parseOid s = none → get_book_by_id db s = none ∧ get_loan_by_id db s = none) ∧
    (get_book_by_id db s = none → s ≠ "" →
      borrow_book db (some u) (some s) now = (.bookNotFound, db)) ∧
    (get_loan_by_id db s = none →
      return_book db (some u) s now = (.loanNotFound, db)) ∧
    (get_book_by_id db "" = none ∧
      borrow_book db (some u) (some "") now = (.bookIdRequired, db)) := by
  refine ⟨?_, ?_, ?_, ?_, ?_⟩
  · intro hps
    constructor
    · simp [get_book_by_id, hps]
    · simp [get_loan_by_id, hps]
  · intro hgb hs0
    simp [borrow_book, truthy, hu, hs0, hgb]
  · intro hgl
    simp [return_book, truthy, hu, hgl]
  · simp [get_book_by_id, parseOid]
  · simp [borrow_book, truthy, hu]

theorem c10_lookup_total_not_found_witness :
    (get_book_by_id dbW0 "zzz" = none ∧ get_loan_by_id dbW0 "zzz" = none) ∧
    borrow_book dbW0 (some uW) (some "zzz") 7 = (.bookNotFound, dbW0) ∧
    return_book dbW0 (some uW) "zzz" 7 = (.loanNotFound, dbW0) ∧
    borrow_book dbW0 (some uW) (some "") 7 = (.bookIdRequired, dbW0) := by
  have h := c10_lookup_total_not_found dbW0 "zzz" uW 7 (by decide)
  exact ⟨h.1 (by decide), h.2.1 (by decide) (by decide), h.2.2.1 (by decide),
    h.2.2.2.2⟩
